import Mathlib

/-!
Verification development for the telegram-forwarder service
(`src/telegram_forwarder.py`): a shallow embedding of the relay and of the
HTTP query service, together with theorems settling the specification's
claims about them.

Conventions of the embedding:
* Python strings are Lean `String`s (lists of characters); `None`-able
  message text is `Option String`.
* Time is modelled as Unix seconds (`Int`); `timedelta(hours=h)` is
  `h * 3600` seconds.
* The external messaging client and the HTTP framework are modelled at the
  interface boundary fixed by the spec (sections 1 and 6); every such
  definition is marked in its doc string.
* A handler that can `raise HTTPException` is a function into
  `Except HTTPException _`.
-/

namespace TgFwd

/-! ## Data model -/

/-- A message as returned by the messaging platform's history read:
numeric id, optional text (`none` for media-only messages), Unix timestamp
(seconds, as read by `int(message.date.timestamp())`). -/
structure RawMessage where
  id : Nat
  text : Option String
  date : Int
deriving Repr, DecidableEq

/-- One entry of the itemized response, mirroring the dict built at
`src/telegram_forwarder.py` lines 91-98. -/
structure ApiMessage where
  message_id : Nat
  text : String
  date : Int
  readable_date : String
  link : String
  text_with_link : String
deriving Repr, DecidableEq

/-- `fastapi.HTTPException`: a status code and a detail string. -/
structure HTTPException where
  status_code : Nat
  detail : String
deriving Repr, DecidableEq

/-- The shared state read by the query service: the global
`telegram_client` handle (collapsed to its connectivity, covering both
`not telegram_client` and `not telegram_client.is_connected()`), the
global `target_channel_id` (set at `start`, line 207), and the target
channel's history as the platform would iterate it (newest first). -/
structure ServerState where
  connected : Bool
  target_channel_id : Option Int
  history : List RawMessage
deriving Repr

/-- Response of `GET /api/messages/(hours)` (lines 105-112). -/
structure MessagesResponse where
  success : Bool
  messages : List ApiMessage
  message_count : Nat
  hours_requested : Int
  time_threshold : Int
  channel_id : String
deriving Repr, DecidableEq

/-- Response of `GET /api/messages/(hours)/combined` (lines 138-144). -/
structure CombinedResponse where
  success : Bool
  combined_text : String
  message_count : Nat
  messages : List ApiMessage
  processing_date : String
deriving Repr, DecidableEq

/-! ## String helpers (models of Python built-ins) -/

/-- The whitespace characters removed by Python's `str.strip()`
(ASCII range; the service's messages are modelled over these). -/
def isPySpace (c : Char) : Bool :=
  c = ' ' || c = '\t' || c = '\n' || c = '\r' || c = '\x0b' || c = '\x0c'

/-- `str.strip()` on a character list: drop whitespace from both ends. -/
def charStrip (l : List Char) : List Char :=
  ((l.dropWhile isPySpace).reverse.dropWhile isPySpace).reverse

/-- Python `str.strip()`. -/
def pyStrip (s : String) : String :=
  ⟨charStrip s.data⟩

/-- Decimal digit to character. -/
def digitChar (d : Nat) : Char :=
  match d with
  | 0 => '0' | 1 => '1' | 2 => '2' | 3 => '3' | 4 => '4'
  | 5 => '5' | 6 => '6' | 7 => '7' | 8 => '8' | _ => '9'

/-- Decimal rendering of a natural number, fuelled so that it is
structurally recursive (fuel `n + 1` always suffices). -/
def natDigits : Nat → Nat → List Char
  | 0, _ => []
  | fuel + 1, n =>
    if n < 10 then [digitChar n] else natDigits fuel (n / 10) ++ [digitChar (n % 10)]

/-- Python `str(n)` for a non-negative integer. -/
def natStr (n : Nat) : String :=
  ⟨natDigits (n + 1) n⟩

/-- Python `str(i)` for an integer. -/
def intStr (i : Int) : String :=
  if i < 0 then ⟨'-' :: (natStr i.natAbs).data⟩ else natStr i.natAbs

/-- Models the external datetime library's ISO rendering of a timestamp
(`message.date.isoformat()`, `time_threshold.isoformat()`,
`datetime.now().date().isoformat()`) as an injective rendering of the
underlying instant. No claim depends on its exact format. -/
def isoformat (t : Int) : String :=
  "ts:" ++ intStr t

/-! ## The itemized endpoint (lines 61-119) -/

/-- `str(abs(target_channel_id))[3:]` (line 88): the channel id used in
deep links, with the fixed-length `-100` marker prefix stripped. -/
def channel_id_for_link (tcid : Int) : String :=
  ⟨(natStr tcid.natAbs).data.drop 3⟩

/-- The deep link built at line 89. -/
def message_link (tcid : Int) (mid : Nat) : String :=
  "https://t.me/c/" ++ channel_id_for_link tcid ++ "/" ++ natStr mid

/-- The per-message dict of lines 91-98, for a message whose text is the
(already known to be kept) string `t`. -/
def mkApiMessage (tcid : Int) (m : RawMessage) (t : String) : ApiMessage :=
  { message_id := m.id
    text := pyStrip t
    date := m.date
    readable_date := isoformat m.date
    link := message_link tcid m.id
    text_with_link := pyStrip t ++ "\n🔗 Source: " ++ message_link tcid m.id }

/-- Does the filter at line 85 (`if message.text and message.text.strip():`)
keep this message? -/
def keepText : Option String → Bool
  | none => false
  | some t => pyStrip t ≠ ""

/-- The loop body of lines 79-98 for one message: `none` when the filter
at line 85 drops it, otherwise the shaped entry. -/
def entryOf (tcid : Int) (m : RawMessage) : Option ApiMessage :=
  match m.text with
  | none => none
  | some t => if pyStrip t = "" then none else some (mkApiMessage tcid m t)

/-- The loop of lines 79-98: keep messages with non-empty stripped text
and shape each into an `ApiMessage`, in fetch order. -/
def buildMessages (tcid : Int) (fetched : List RawMessage) : List ApiMessage :=
  fetched.filterMap (entryOf tcid)

/-- Modelled from the spec: the external messaging client's history
iteration (`client.iter_messages(…, offset_date=threshold, reverse=False,
limit=200)`), at the interface boundary fixed by the spec, section 1:
"iterate historical messages of chat C since time T", newest first, capped
at `limit`. `history` is the channel's full history in the platform's
newest-first iteration order. -/
def iter_messages (history : List RawMessage) (offset_date : Int) (limit : Nat) :
    List RawMessage :=
  (history.filter fun m => offset_date ≤ m.date).take limit

/-- The comparison used by `messages.sort(key=lambda x: x['date'],
reverse=True)` (line 101): Python's stable sort, descending by date. -/
def byDateDesc (a b : ApiMessage) : Bool :=
  b.date ≤ a.date

/-- Core of `GET /api/messages/(hours)` (lines 61-119), after the
dependency-injected key check has succeeded: the 503 guards of lines
67-71 (including Python's falsiness of a zero channel id), the fetch, the
text filter, the shaping, and the final stable descending sort. -/
def get_recent_messages (st : ServerState) (hours : Int) (now : Int) :
    Except HTTPException MessagesResponse :=
  if st.connected = false then
    .error ⟨503, "Telegram client not connected"⟩
  else
    match st.target_channel_id with
    | none => .error ⟨503, "Target channel not configured"⟩
    | some tcid =>
      if tcid = 0 then
        .error ⟨503, "Target channel not configured"⟩
      else
        .ok { success := true
              messages :=
                (buildMessages tcid
                  (iter_messages st.history (now - hours * 3600) 200)).mergeSort byDateDesc
              message_count :=
                ((buildMessages tcid
                  (iter_messages st.history (now - hours * 3600) 200)).mergeSort byDateDesc).length
              hours_requested := hours
              time_threshold := now - hours * 3600
              channel_id := intStr tcid }

/-! ## Authentication (lines 37 and 46-50) -/

/-- `N8N_API_KEY = os.getenv('N8N_API_KEY', 'default-change-this-key')`
(line 37): the effective key as a function of the environment variable. -/
def N8N_API_KEY (env_key : Option String) : String :=
  env_key.getD "default-change-this-key"

/-- `verify_api_key` (lines 46-50), applied to the received header
value. -/
def verify_api_key (api_key : String) (x_api_key : String) :
    Except HTTPException Bool :=
  if x_api_key ≠ api_key then .error ⟨401, "Invalid API key"⟩ else .ok true

/-- Modelled from the spec: the HTTP framework's dispatch of the
`x-api-key` request header into the `verify_api_key` dependency. The
framework is an external collaborator (spec section 1); per the spec's
error table (section 6: "401 (bad/missing shared secret)") a request whose
header is missing is rejected with 401 before any handler runs; a present
header value is checked by `verify_api_key` (source lines 46-50). -/
def checkApiKey (api_key : String) (header : Option String) :
    Except HTTPException Bool :=
  match header with
  | none => .error ⟨401, "Invalid API key"⟩
  | some v => verify_api_key api_key v

/-- The full `GET /api/messages/(hours)` pipeline: key check first (the
`Depends(verify_api_key)` of line 64), then the handler body. -/
def api_messages (env_key : Option String) (st : ServerState)
    (hours : Int) (now : Int) (header : Option String) :
    Except HTTPException MessagesResponse :=
  match checkApiKey (N8N_API_KEY env_key) header with
  | .error e => .error e
  | .ok _ => get_recent_messages st hours now

/-! ## The combined endpoint (lines 121-151) -/

/-- The fixed separator `'\n\n---\n\n'` of line 132, as characters. -/
def SEP : List Char :=
  ['\n', '\n', '-', '-', '-', '\n', '\n']

/-- Python `'\n\n---\n\n'.join(…)` at the character level (line 132). -/
def joinSep : List (List Char) → List Char
  | [] => []
  | [x] => x
  | x :: xs => x ++ SEP ++ joinSep xs

/-- Python's `str(e)` for an `HTTPException`, as interpolated into the
detail at line 150: status code and detail. -/
def exc_str (e : HTTPException) : String :=
  natStr e.status_code ++ ": " ++ e.detail

/-- Core of `GET /api/messages/(hours)/combined` (lines 121-151): it calls
`get_recent_messages` directly (line 129) inside a `try` whose
`except Exception` also catches the `HTTPException`s raised there and
re-raises them as a 500 (lines 146-151). -/
def get_combined_messages (st : ServerState) (hours : Int) (now : Int) :
    Except HTTPException CombinedResponse :=
  match get_recent_messages st hours now with
  | .error e =>
    .error ⟨500, "Error creating combined messages: " ++ exc_str e⟩
  | .ok r =>
    .ok { success := true
          combined_text := ⟨joinSep (r.messages.map fun m => m.text_with_link.data)⟩
          message_count := r.message_count
          messages := r.messages
          processing_date := isoformat now }

/-- The full `GET /api/messages/(hours)/combined` pipeline: the endpoint's
own `Depends(verify_api_key)` (line 124) runs outside the handler's `try`,
then the handler body. -/
def api_combined (env_key : Option String) (st : ServerState)
    (hours : Int) (now : Int) (header : Option String) :
    Except HTTPException CombinedResponse :=
  match checkApiKey (N8N_API_KEY env_key) header with
  | .error e => .error e
  | .ok _ => get_combined_messages st hours now

/-- Python `str.split` on the fixed separator, at the character level,
fuelled so that it is structurally recursive (fuel `s.length` always
suffices): scan left to right, cut at each non-overlapping occurrence of
`SEP`, and continue after it. -/
def splitSepFuel : Nat → List Char → List (List Char)
  | _, [] => [[]]
  | 0, c :: s => [c :: s]
  | fuel + 1, c :: s =>
    if SEP.isPrefixOf (c :: s) then
      [] :: splitSepFuel fuel ((c :: s).drop 7)
    else
      (c :: (splitSepFuel fuel s).headD []) :: (splitSepFuel fuel s).tail

/-- Python `combined_text.split('\n\n---\n\n')`. -/
def splitSep (s : List Char) : List (List Char) :=
  splitSepFuel s.length s

/-- Index of the first occurrence of `SEP` in a character list,
`none` when it does not occur. -/
def firstSepIdx : List Char → Option Nat
  | [] => none
  | c :: s =>
    if SEP.isPrefixOf (c :: s) then some 0 else (firstSepIdx s).map (· + 1)

/-- A string is separator-clean when the first occurrence of `SEP` in
the string followed by one separator is exactly the appended separator:
`SEP` neither occurs inside the string nor straddles its end. -/
def sepClean (x : List Char) : Prop :=
  firstSepIdx (x ++ SEP) = some x.length

instance (x : List Char) : Decidable (sepClean x) :=
  inferInstanceAs (Decidable (firstSepIdx (x ++ SEP) = some x.length))

/-- Status code of a response, `none` on success. -/
def respStatus {α : Type} : Except HTTPException α → Option Nat
  | .error e => some e.status_code
  | .ok _ => none

/-! ## The relay's forward handler (lines 217-232) -/

/-- A new-message event from the source channel. -/
structure InboundEvent where
  message_id : Nat
deriving Repr, DecidableEq

/-- Observable relay state: which message ids have been forwarded, the
log, how many forward attempts were made, and whether the event
subscription (registered once at line 220) is still in place. -/
structure RelayState where
  forwarded : List Nat
  log : List String
  attempts : Nat
  handler_registered : Bool
deriving Repr, DecidableEq

/-- `forward_handler` (lines 221-231). The outcome of the platform's
`forward_messages` call is supplied by the environment; each invocation is
exactly one attempt, the `try`/`except` converts a failure into a log line
and nothing else (no re-raise, no retry, no un-subscription). -/
def forward_handler (st : RelayState) (ev : InboundEvent)
    (outcome : Except String Unit) : RelayState :=
  match outcome with
  | .ok _ =>
    { st with
      forwarded := st.forwarded ++ [ev.message_id]
      log := st.log ++ ["Forwarded message " ++ natStr ev.message_id]
      attempts := st.attempts + 1 }
  | .error e =>
    { st with
      log := st.log ++ ["Forward failed: " ++ e]
      attempts := st.attempts + 1 }

/-- The event loop as the relay observes it: each inbound event is handed
to `forward_handler` together with its forward outcome, one after the
other. -/
def processEvents (st : RelayState) :
    List (InboundEvent × Except String Unit) → RelayState
  | [] => st
  | (ev, oc) :: rest => processEvents (forward_handler st ev oc) rest

/-! ## Helper lemmas about the embedding -/

/-- Inversion of the per-message shaping: a kept entry comes from a raw
message with some text whose stripped form is non-empty, and every field
is determined by that raw message. -/
theorem entryOf_eq_some {tcid : Int} {m : RawMessage} {b : ApiMessage}
    (h : entryOf tcid m = some b) :
    ∃ t, m.text = some t ∧ pyStrip t ≠ "" ∧ b = mkApiMessage tcid m t := by
  cases htext : m.text with
  | none => simp [entryOf, htext] at h
  | some t =>
    by_cases hst : pyStrip t = ""
    · simp [entryOf, htext, hst] at h
    · simp only [entryOf, htext] at h
      rw [if_neg hst] at h
      exact ⟨t, rfl, hst, (Option.some_inj.mp h).symm⟩

/-- A result entry's date is the raw message's date. -/
theorem entryOf_date {tcid : Int} {m : RawMessage} {b : ApiMessage}
    (h : entryOf tcid m = some b) : b.date = m.date := by
  obtain ⟨t, -, -, hb⟩ := entryOf_eq_some h
  rw [hb]; rfl

/-- Membership in a built list, unfolded to the raw message it came
from. -/
theorem mem_buildMessages {tcid : Int} {l : List RawMessage} {b : ApiMessage}
    (h : b ∈ buildMessages tcid l) :
    ∃ m ∈ l, ∃ t, m.text = some t ∧ pyStrip t ≠ "" ∧ b = mkApiMessage tcid m t := by
  unfold buildMessages at h
  obtain ⟨m, hm, he⟩ := List.mem_filterMap.mp h
  obtain ⟨t, ht, hst, hb⟩ := entryOf_eq_some he
  exact ⟨m, hm, t, ht, hst, hb⟩

/-- The built list is sorted (weakly descending by date) whenever the
fetched list is. -/
theorem buildMessages_pairwise {tcid : Int} {l : List RawMessage}
    (h : l.Pairwise fun a b => b.date ≤ a.date) :
    (buildMessages tcid l).Pairwise fun a b => byDateDesc a b := by
  unfold buildMessages
  rw [List.pairwise_filterMap]
  refine h.imp ?_
  intro a a' hle b hb b' hb'
  have hb1 := entryOf_date hb
  have hb2 := entryOf_date hb'
  simp only [byDateDesc, hb1, hb2, decide_eq_true_eq]
  exact hle

/-- The fetched slice is sorted whenever the channel history is. -/
theorem iter_messages_pairwise {history : List RawMessage} {thr : Int} {n : Nat}
    (h : history.Pairwise fun a b => b.date ≤ a.date) :
    (iter_messages history thr n).Pairwise fun a b => b.date ≤ a.date :=
  ((h.filter _).sublist (List.take_sublist _ _))

/-- Every fetched message is inside the window. -/
theorem iter_messages_date {history : List RawMessage} {thr : Int} {n : Nat}
    {m : RawMessage} (h : m ∈ iter_messages history thr n) : thr ≤ m.date := by
  unfold iter_messages at h
  have hmem := (List.take_sublist _ _).subset h
  exact of_decide_eq_true (List.mem_filter.mp hmem).2

/-- Every fetched message is in the history. -/
theorem iter_messages_subset {history : List RawMessage} {thr : Int} {n : Nat}
    {m : RawMessage} (h : m ∈ iter_messages history thr n) : m ∈ history :=
  List.mem_of_mem_filter ((List.take_sublist _ _).subset h)

/-- Closed form of a successful itemized retrieval: when the client is
connected, the target is resolved, and the (platform-provided) history is
newest-first, the final stable sort is the identity and the response is
the built list itself. -/
theorem get_recent_messages_ok {st : ServerState} {hours now tcid : Int}
    (hc : st.connected = true) (ht : st.target_channel_id = some tcid)
    (h0 : ¬tcid = 0)
    (hs : st.history.Pairwise fun a b => b.date ≤ a.date) :
    get_recent_messages st hours now =
      .ok { success := true
            messages := buildMessages tcid (iter_messages st.history (now - hours * 3600) 200)
            message_count :=
              (buildMessages tcid (iter_messages st.history (now - hours * 3600) 200)).length
            hours_requested := hours
            time_threshold := now - hours * 3600
            channel_id := intStr tcid } := by
  have hsorted : (buildMessages tcid
      (iter_messages st.history (now - hours * 3600) 200)).Pairwise
      fun a b => byDateDesc a b :=
    buildMessages_pairwise (iter_messages_pairwise hs)
  unfold get_recent_messages
  simp only [hc, ht]
  rw [if_neg (by simp : ¬(true = false)), if_neg h0,
    List.mergeSort_of_sorted hsorted]

/-- The health of the auth gate: the pipeline succeeds only when the
header carried exactly the effective key. -/
theorem api_messages_ok_key {env_key : Option String} {st : ServerState}
    {hours now : Int} {header : Option String}
    (h : (api_messages env_key st hours now header).toOption.isSome = true) :
    header = some (N8N_API_KEY env_key) := by
  cases header with
  | none => simp [api_messages, checkApiKey, Except.toOption] at h
  | some v =>
    by_cases hv : v = N8N_API_KEY env_key
    · rw [hv]
    · simp [api_messages, checkApiKey, verify_api_key, hv, Except.toOption] at h

/-- Same for the combined pipeline. -/
theorem api_combined_ok_key {env_key : Option String} {st : ServerState}
    {hours now : Int} {header : Option String}
    (h : (api_combined env_key st hours now header).toOption.isSome = true) :
    header = some (N8N_API_KEY env_key) := by
  cases header with
  | none => simp [api_combined, checkApiKey, Except.toOption] at h
  | some v =>
    by_cases hv : v = N8N_API_KEY env_key
    · rw [hv]
    · simp [api_combined, checkApiKey, verify_api_key, hv, Except.toOption] at h

/-- A header not equal to the effective key is answered 401 by both
protected endpoints. -/
theorem auth_reject {env_key : Option String} {st : ServerState}
    {hours now : Int} {header : Option String}
    (h : header ≠ some (N8N_API_KEY env_key)) :
    api_messages env_key st hours now header = .error ⟨401, "Invalid API key"⟩ ∧
      api_combined env_key st hours now header = .error ⟨401, "Invalid API key"⟩ := by
  cases header with
  | none => exact ⟨rfl, rfl⟩
  | some v =>
    have hv : ¬v = N8N_API_KEY env_key := fun he => h (by rw [he])
    constructor <;> simp [api_messages, api_combined, checkApiKey, verify_api_key, hv]

/-- The event subscription registered at line 220 is untouched by the
handler, whatever the forward outcomes were. -/
theorem processEvents_registered (events : List (InboundEvent × Except String Unit)) :
    ∀ st : RelayState, (processEvents st events).handler_registered = st.handler_registered := by
  induction events with
  | nil => intro st; rfl
  | cons p rest ih =>
    intro st
    obtain ⟨ev, oc⟩ := p
    rw [processEvents, ih]
    cases oc <;> rfl

/-- Exactly one forward attempt is made per inbound event: no retries,
and no event is skipped after a failure. -/
theorem processEvents_attempts (events : List (InboundEvent × Except String Unit)) :
    ∀ st : RelayState, (processEvents st events).attempts = st.attempts + events.length := by
  induction events with
  | nil => intro st; simp [processEvents]
  | cons p rest ih =>
    intro st
    obtain ⟨ev, oc⟩ := p
    rw [processEvents, ih]
    cases oc <;> simp [forward_handler] <;> omega

/-- The forwarded messages are exactly the events whose single forward
attempt succeeded, in order; failed events are dropped. -/
theorem processEvents_forwarded (events : List (InboundEvent × Except String Unit)) :
    ∀ st : RelayState, (processEvents st events).forwarded =
      st.forwarded ++ events.filterMap fun p =>
        match p.2 with
        | .ok _ => some p.1.message_id
        | .error _ => none := by
  induction events with
  | nil => intro st; simp [processEvents]
  | cons p rest ih =>
    intro st
    obtain ⟨ev, oc⟩ := p
    rw [processEvents, ih]
    cases oc with
    | ok u => simp [forward_handler]
    | error e => simp [forward_handler]

/-- A successful full pipeline is a successful core handler call. -/
theorem api_messages_ok_inv {env_key : Option String} {st : ServerState}
    {hours now : Int} {header : Option String} {r : MessagesResponse}
    (h : api_messages env_key st hours now header = .ok r) :
    get_recent_messages st hours now = .ok r := by
  unfold api_messages at h
  cases hchk : checkApiKey (N8N_API_KEY env_key) header with
  | error e => rw [hchk] at h; cases h
  | ok b => rw [hchk] at h; exact h

/-- With the effective key presented, the pipeline is the core handler. -/
theorem api_messages_valid_key (env_key : Option String) (st : ServerState)
    (hours now : Int) :
    api_messages env_key st hours now (some (N8N_API_KEY env_key)) =
      get_recent_messages st hours now := by
  simp [api_messages, checkApiKey, verify_api_key]

/-- Inversion of a successful core handler call: the guards passed and
every response field is the one built at lines 105-112. -/
theorem get_recent_messages_ok_inv {st : ServerState} {hours now : Int}
    {r : MessagesResponse} (h : get_recent_messages st hours now = .ok r) :
    st.connected = true ∧ ∃ tcid, st.target_channel_id = some tcid ∧ ¬tcid = 0 ∧
      r.messages = (buildMessages tcid
        (iter_messages st.history (now - hours * 3600) 200)).mergeSort byDateDesc ∧
      r.message_count = r.messages.length ∧
      r.success = true := by
  unfold get_recent_messages at h
  by_cases hc : st.connected = false
  · rw [if_pos hc] at h; cases h
  · have hct : st.connected = true := by
      cases hcc : st.connected
      · exact absurd hcc hc
      · rfl
    rw [if_neg hc] at h
    cases htc : st.target_channel_id with
    | none => simp only [htc] at h; cases h
    | some tcid =>
      simp only [htc] at h
      by_cases h0 : tcid = 0
      · rw [if_pos h0] at h; cases h
      · rw [if_neg h0] at h
        injection h with h
        exact ⟨hct, tcid, rfl, h0, by rw [← h], by rw [← h], by rw [← h]⟩

/-- Ids of the kept entries, when every fetched message is kept. -/
theorem buildMessages_all_kept {tcid : Int} {l : List RawMessage}
    (h : ∀ m ∈ l, keepText m.text = true) :
    (buildMessages tcid l).map (fun b => b.message_id) = l.map (fun m => m.id) := by
  induction l with
  | nil => rfl
  | cons m rest ih =>
    have hm := h m (List.mem_cons_self m rest)
    have hrest := ih fun x hx => h x (List.mem_cons_of_mem m hx)
    cases htext : m.text with
    | none => rw [htext] at hm; cases hm
    | some t =>
      have hst : ¬pyStrip t = "" := by
        rw [htext] at hm
        exact of_decide_eq_true hm
      have hentry : entryOf tcid m = some (mkApiMessage tcid m t) := by
        simp [entryOf, htext, hst]
      rw [buildMessages, List.filterMap_cons_some hentry]
      simp only [List.map_cons]
      rw [show (List.filterMap (entryOf tcid) rest).map (fun b => b.message_id) =
            rest.map (fun m => m.id) from hrest]
      rfl

/-- C1 (amended): on every successful itemized request over a
newest-first history, the response reports success, every returned
message is inside the window, at most 200 entries are returned, and —
whatever texts the messages carry — the returned list is exactly the
kept (non-empty-text) messages among the 200 most recent in-window
messages, shaped in fetch order; when more than 200 messages fall inside
the window and all of the 200 most recent in-window ones carry non-empty
text, exactly those 200 are returned. The cap of line 83 is applied by
the history fetch before the text filter of line 85, so empty-text
messages inside the cap reduce the returned count below 200. -/
theorem C1_window_and_cap (env_key : Option String) (st : ServerState)
    (hours now : Int) (header : Option String) (r : MessagesResponse) (tcid : Int)
    (hs : st.history.Pairwise fun a b => b.date ≤ a.date)
    (htc : st.target_channel_id = some tcid)
    (hok : api_messages env_key st hours now header = .ok r) :
    r.success = true ∧
    (∀ m ∈ r.messages, now - hours * 3600 ≤ m.date) ∧
    r.messages.length ≤ 200 ∧
    r.messages = buildMessages tcid
      ((st.history.filter fun m => now - hours * 3600 ≤ m.date).take 200) ∧
    (200 < (st.history.filter fun m => now - hours * 3600 ≤ m.date).length →
      (∀ m ∈ (st.history.filter fun m => now - hours * 3600 ≤ m.date).take 200,
        keepText m.text = true) →
      r.message_count = 200 ∧
      r.messages.map (fun b => b.message_id) =
        ((st.history.filter fun m => now - hours * 3600 ≤ m.date).take 200).map
          (fun m => m.id)) := by
  obtain ⟨-, tcid2, htc2, -, hmsgs, hcount, hsucc⟩ :=
    get_recent_messages_ok_inv (api_messages_ok_inv hok)
  have htcid : tcid2 = tcid := by
    rw [htc] at htc2
    exact (Option.some_inj.mp htc2).symm
  rw [htcid] at hmsgs
  have hbuilt :
      r.messages = buildMessages tcid (iter_messages st.history (now - hours * 3600) 200) := by
    rw [hmsgs,
      List.mergeSort_of_sorted (buildMessages_pairwise (iter_messages_pairwise hs))]
  refine ⟨hsucc, ?_, ?_, hbuilt, ?_⟩
  · intro m hm
    rw [hbuilt] at hm
    obtain ⟨raw, hraw, t, -, -, hb⟩ := mem_buildMessages hm
    have := iter_messages_date hraw
    rw [hb]
    exact this
  · rw [hbuilt]
    calc (buildMessages tcid (iter_messages st.history (now - hours * 3600) 200)).length
        ≤ (iter_messages st.history (now - hours * 3600) 200).length :=
          List.length_filterMap_le _ _
      _ ≤ 200 := List.length_take_le _ _
  · intro hgt hall
    have hkept : ∀ m ∈ iter_messages st.history (now - hours * 3600) 200,
        keepText m.text = true := hall
    have hids := @buildMessages_all_kept tcid _ hkept
    have hlen : (iter_messages st.history (now - hours * 3600) 200).length = 200 :=
      List.length_take_of_le (Nat.le_of_lt hgt)
    constructor
    · rw [hcount, hbuilt]
      have := congrArg List.length hids
      simp only [List.length_map] at this
      rw [this, hlen]
    · rw [hbuilt, hids]
      rfl

/-- The concrete 201-message channel history used against C1: all inside
any recent window, newest first, and only the newest one has
whitespace-only text. -/
def c1History : List RawMessage :=
  (List.range 201).map fun i =>
    { id := 201 - i, text := some (if i = 0 then " " else "m"), date := 1000 - (i : Int) }

/-- The concrete history is newest-first. -/
theorem c1History_sorted : c1History.Pairwise fun a b => b.date ≤ a.date := by
  unfold c1History
  rw [List.pairwise_map]
  refine (List.pairwise_lt_range 201).imp ?_
  intro i j hij
  simp only
  omega

set_option maxRecDepth 20000 in
/-- C1, counterexample: with 201 messages inside the window, the newest
of which has whitespace-only text, the itemized request succeeds but
returns 199 messages — not the 200 most recent in-window messages that
the claim promises. -/
theorem C1_counterexample :
    200 < (c1History.filter fun m => ((1000 : Int) - 1 * 3600) ≤ m.date).length ∧
    (api_messages none ⟨true, some (-1002659193089), c1History⟩ 1 1000
      (some "default-change-this-key")).toOption.map (fun r => r.message_count) =
        some 199 ∧
    ¬(api_messages none ⟨true, some (-1002659193089), c1History⟩ 1 1000
      (some "default-change-this-key")).toOption.map (fun r => r.message_count) =
        some 200 := by
  have hok :
      api_messages none ⟨true, some (-1002659193089), c1History⟩ 1 1000
        (some "default-change-this-key") =
      get_recent_messages ⟨true, some (-1002659193089), c1History⟩ 1 1000 :=
    api_messages_valid_key none _ 1 1000
  have hrec := @get_recent_messages_ok ⟨true, some (-1002659193089), c1History⟩
    1 1000 (-1002659193089) rfl rfl (by decide) c1History_sorted
  have hcnt :
      (buildMessages (-1002659193089)
        (iter_messages c1History (-2600) 200)).length = 199 := by decide
  refine ⟨by decide, ?_, ?_⟩
  · rw [hok, hrec]
    simp [Except.toOption, hcnt]
  · rw [hok, hrec]
    simp [Except.toOption, hcnt]

/-- The one-message history used to instantiate several theorems. -/
def c1wHistory : List RawMessage :=
  [{ id := 5, text := some "hello", date := 100 }]

/-- A connected, resolved state over that history. -/
def c1wState : ServerState :=
  ⟨true, some (-1002659193089), c1wHistory⟩

/-- The response the itemized endpoint gives on `c1wState` for a
24-hour window at `now = 100`. -/
def c1wResp : MessagesResponse :=
  { success := true
    messages :=
      buildMessages (-1002659193089) (iter_messages c1wHistory (100 - 24 * 3600) 200)
    message_count :=
      (buildMessages (-1002659193089) (iter_messages c1wHistory (100 - 24 * 3600) 200)).length
    hours_requested := 24
    time_threshold := 100 - 24 * 3600
    channel_id := intStr (-1002659193089) }

/-- The one-message history is (trivially) newest-first. -/
theorem c1wHistory_sorted : c1wHistory.Pairwise fun a b => b.date ≤ a.date :=
  List.pairwise_singleton _ _

/-- That request indeed succeeds with `c1wResp`. -/
theorem c1w_ok :
    api_messages none c1wState 24 100 (some "default-change-this-key") = .ok c1wResp := by
  have h := api_messages_valid_key none c1wState 24 100
  rw [show some "default-change-this-key" = some (N8N_API_KEY none) from rfl, h]
  exact get_recent_messages_ok rfl rfl (by decide) c1wHistory_sorted

/-- Concrete instantiation of `C1_window_and_cap`. -/
theorem C1_window_and_cap_witness :
    (c1wState.history.Pairwise fun a b => b.date ≤ a.date) ∧
    c1wState.target_channel_id = some (-1002659193089) ∧
    api_messages none c1wState 24 100 (some "default-change-this-key") = .ok c1wResp ∧
    (c1wResp.success = true ∧
     (∀ m ∈ c1wResp.messages, (100 : Int) - 24 * 3600 ≤ m.date) ∧
     c1wResp.messages.length ≤ 200 ∧
     c1wResp.messages = buildMessages (-1002659193089)
       ((c1wState.history.filter fun m => (100 : Int) - 24 * 3600 ≤ m.date).take 200) ∧
     (200 < (c1wState.history.filter fun m => (100 : Int) - 24 * 3600 ≤ m.date).length →
       (∀ m ∈ (c1wState.history.filter fun m => (100 : Int) - 24 * 3600 ≤ m.date).take 200,
         keepText m.text = true) →
       c1wResp.message_count = 200 ∧
       c1wResp.messages.map (fun b => b.message_id) =
         ((c1wState.history.filter fun m => (100 : Int) - 24 * 3600 ≤ m.date).take 200).map
           (fun m => m.id))) :=
  ⟨c1wHistory_sorted, rfl, c1w_ok,
   C1_window_and_cap none c1wState 24 100 (some "default-change-this-key") c1wResp
     (-1002659193089) c1wHistory_sorted rfl c1w_ok⟩

/-- Over a newest-first history, widening the window only extends the
filtered list at its old end: the narrow window's filter result is a
prefix of the wide window's. -/
theorem filter_window_leading {l : List RawMessage} {thr1 thr2 : Int}
    (h12 : thr2 ≤ thr1) (hs : l.Pairwise fun a b => b.date ≤ a.date) :
    (l.filter fun m => thr1 ≤ m.date) <+: (l.filter fun m => thr2 ≤ m.date) := by
  induction l with
  | nil => exact List.nil_prefix
  | cons m rest ih =>
    obtain ⟨hhead, htail⟩ := List.pairwise_cons.mp hs
    by_cases h1 : thr1 ≤ m.date
    · have h2 : thr2 ≤ m.date := le_trans h12 h1
      rw [List.filter_cons_of_pos (by simpa using h1),
        List.filter_cons_of_pos (by simpa using h2)]
      obtain ⟨t, ht⟩ := ih htail
      exact ⟨t, by rw [List.cons_append, ht]⟩
    · have hnil : (m :: rest).filter (fun m => decide (thr1 ≤ m.date)) = [] := by
        rw [List.filter_eq_nil_iff]
        intro a ha
        rcases List.mem_cons.mp ha with rfl | hmem
        · simpa using h1
        · have hle := hhead a hmem
          simp only [decide_eq_true_eq]
          omega
      rw [show (m :: rest).filter (fun m => thr1 ≤ m.date) = [] from hnil]
      exact List.nil_prefix

/-- Taking the same number of elements preserves the prefix relation. -/
theorem take_mono_of_leading {l1 l2 : List RawMessage} (n : Nat) (h : l1 <+: l2) :
    l1.take n <+: l2.take n := by
  obtain ⟨t, rfl⟩ := h
  rw [List.take_append_eq_append_take]
  exact ⟨_, rfl⟩

/-- A message fetched for a narrow window is also fetched for any wider
window over the same newest-first history. -/
theorem iter_messages_mono {l : List RawMessage} {thr1 thr2 : Int} {n : Nat}
    (h12 : thr2 ≤ thr1) (hs : l.Pairwise fun a b => b.date ≤ a.date)
    {m : RawMessage} (hm : m ∈ iter_messages l thr1 n) :
    m ∈ iter_messages l thr2 n :=
  ((take_mono_of_leading n (filter_window_leading h12 hs)).sublist.subset) hm

/-- C5: over the same newest-first channel history, for windows
h1 < h2, every message id in the itemized result for h1 also occurs in
the itemized result for h2 (the cap keeps the 200 newest in-window
messages, and the narrow window's fetch is a prefix of the wide one's). -/
theorem C5_window_superset (env_key : Option String) (st : ServerState)
    (h1 h2 now : Int) (header : Option String) (r1 r2 : MessagesResponse)
    (hs : st.history.Pairwise fun a b => b.date ≤ a.date)
    (h12 : h1 < h2)
    (hok1 : api_messages env_key st h1 now header = .ok r1)
    (hok2 : api_messages env_key st h2 now header = .ok r2) :
    ∀ i ∈ r1.messages.map (fun b => b.message_id),
      i ∈ r2.messages.map (fun b => b.message_id) := by
  obtain ⟨-, tcid1, htc1, -, hm1, -, -⟩ :=
    get_recent_messages_ok_inv (api_messages_ok_inv hok1)
  obtain ⟨-, tcid2, htc2, -, hm2, -, -⟩ :=
    get_recent_messages_ok_inv (api_messages_ok_inv hok2)
  have htcid : tcid2 = tcid1 := by
    rw [htc1] at htc2
    exact (Option.some_inj.mp htc2).symm
  rw [htcid] at hm2
  intro i hi
  obtain ⟨b, hb, hbi⟩ := List.mem_map.mp hi
  rw [hm1] at hb
  have hb1 := List.mem_mergeSort.mp hb
  unfold buildMessages at hb1
  obtain ⟨raw, hraw, hentry⟩ := List.mem_filterMap.mp hb1
  have hthr : now - h2 * 3600 ≤ now - h1 * 3600 := by omega
  have hraw2 := iter_messages_mono hthr hs hraw
  refine List.mem_map.mpr ⟨b, ?_, hbi⟩
  rw [hm2]
  exact List.mem_mergeSort.mpr
    (show b ∈ buildMessages tcid1 (iter_messages st.history (now - h2 * 3600) 200) from
      List.mem_filterMap.mpr ⟨raw, hraw2, hentry⟩)

/-- The itemized response for the 48-hour window on `c1wState`. -/
def c5wResp : MessagesResponse :=
  { success := true
    messages :=
      buildMessages (-1002659193089) (iter_messages c1wHistory (100 - 48 * 3600) 200)
    message_count :=
      (buildMessages (-1002659193089) (iter_messages c1wHistory (100 - 48 * 3600) 200)).length
    hours_requested := 48
    time_threshold := 100 - 48 * 3600
    channel_id := intStr (-1002659193089) }

/-- The 48-hour request on `c1wState` succeeds with `c5wResp`. -/
theorem c5w_ok :
    api_messages none c1wState 48 100 (some "default-change-this-key") = .ok c5wResp := by
  have h := api_messages_valid_key none c1wState 48 100
  rw [show some "default-change-this-key" = some (N8N_API_KEY none) from rfl, h]
  exact get_recent_messages_ok rfl rfl (by decide) c1wHistory_sorted

/-- Concrete instantiation of `C5_window_superset`. -/
theorem C5_window_superset_witness :
    (c1wState.history.Pairwise fun a b => b.date ≤ a.date) ∧
    (24 : Int) < 48 ∧
    (∀ i ∈ c1wResp.messages.map (fun b => b.message_id),
      i ∈ c5wResp.messages.map (fun b => b.message_id)) :=
  ⟨c1wHistory_sorted, by decide,
   C5_window_superset none c1wState 24 48 100 (some "default-change-this-key")
     c1wResp c5wResp c1wHistory_sorted (by decide) c1w_ok c5w_ok⟩

/-- A successful combined pipeline call is a successful core handler
call whose payload it repackages. -/
theorem api_combined_ok_inv {env_key : Option String} {st : ServerState}
    {hours now : Int} {header : Option String} {rc : CombinedResponse}
    (h : api_combined env_key st hours now header = .ok rc) :
    ∃ r, get_recent_messages st hours now = .ok r ∧
      rc.messages = r.messages ∧
      rc.message_count = r.message_count ∧
      rc.combined_text = ⟨joinSep (r.messages.map fun m => m.text_with_link.data)⟩ ∧
      rc.success = true := by
  unfold api_combined at h
  cases hchk : checkApiKey (N8N_API_KEY env_key) header with
  | error e => rw [hchk] at h; cases h
  | ok b =>
    rw [hchk] at h
    unfold get_combined_messages at h
    cases hrec : get_recent_messages st hours now with
    | error e => rw [hrec] at h; cases h
    | ok r =>
      rw [hrec] at h
      injection h with h
      exact ⟨r, rfl, by rw [← h], by rw [← h], by rw [← h], by rw [← h]⟩

/-- Closed form of a successful combined retrieval. -/
theorem get_combined_messages_ok {st : ServerState} {hours now : Int}
    {r : MessagesResponse} (h : get_recent_messages st hours now = .ok r) :
    get_combined_messages st hours now =
      .ok { success := true
            combined_text := ⟨joinSep (r.messages.map fun m => m.text_with_link.data)⟩
            message_count := r.message_count
            messages := r.messages
            processing_date := isoformat now } := by
  unfold get_combined_messages
  rw [h]

/-- With the effective key presented, the combined pipeline is the core
combined handler. -/
theorem api_combined_valid_key (env_key : Option String) (st : ServerState)
    (hours now : Int) :
    api_combined env_key st hours now (some (N8N_API_KEY env_key)) =
      get_combined_messages st hours now := by
  simp [api_combined, checkApiKey, verify_api_key]

/-- C6: over a newest-first history, both the itemized and the combined
result are ordered by timestamp descending (non-increasing), the
combined result embeds exactly the itemized message list, and messages
with equal timestamps keep the relative order in which the underlying
history read delivered them (the final stable sort of line 101 is the
identity on the already-descending built list). -/
theorem C6_ordering (env_key : Option String) (st : ServerState)
    (hours now : Int) (header : Option String) (r : MessagesResponse)
    (rc : CombinedResponse) (tcid : Int)
    (hs : st.history.Pairwise fun a b => b.date ≤ a.date)
    (htc : st.target_channel_id = some tcid)
    (hok : api_messages env_key st hours now header = .ok r)
    (hokc : api_combined env_key st hours now header = .ok rc) :
    (r.messages.Pairwise fun a b => b.date ≤ a.date) ∧
    rc.messages = r.messages ∧
    (∀ d : Int, r.messages.filter (fun b => b.date = d) =
      (buildMessages tcid (iter_messages st.history (now - hours * 3600) 200)).filter
        (fun b => b.date = d)) := by
  obtain ⟨-, tcid2, htc2, -, hmsgs, -, -⟩ :=
    get_recent_messages_ok_inv (api_messages_ok_inv hok)
  have htcid : tcid2 = tcid := by
    rw [htc] at htc2
    exact (Option.some_inj.mp htc2).symm
  subst htcid
  have hbuilt :
      r.messages = buildMessages tcid2 (iter_messages st.history (now - hours * 3600) 200) := by
    rw [hmsgs,
      List.mergeSort_of_sorted (buildMessages_pairwise (iter_messages_pairwise hs))]
  obtain ⟨r', hr', hmsgs', -, -, -⟩ := api_combined_ok_inv hokc
  have hrr : r' = r := by
    have h1 := api_messages_ok_inv hok
    rw [hr'] at h1
    exact (Except.ok.inj h1)
  refine ⟨?_, ?_, ?_⟩
  · rw [hbuilt]
    exact (buildMessages_pairwise (iter_messages_pairwise hs)).imp
      (fun hab => by simpa [byDateDesc] using hab)
  · rw [hmsgs', hrr]
  · intro d
    rw [hbuilt]

/-- The combined response on `c1wState` for the 24-hour window. -/
def c6wResp : CombinedResponse :=
  { success := true
    combined_text := ⟨joinSep (c1wResp.messages.map fun m => m.text_with_link.data)⟩
    message_count := c1wResp.message_count
    messages := c1wResp.messages
    processing_date := isoformat 100 }

/-- The combined request on `c1wState` succeeds with `c6wResp`. -/
theorem c6w_ok :
    api_combined none c1wState 24 100 (some "default-change-this-key") = .ok c6wResp := by
  have h := api_combined_valid_key none c1wState 24 100
  rw [show some "default-change-this-key" = some (N8N_API_KEY none) from rfl, h]
  exact get_combined_messages_ok
    (get_recent_messages_ok rfl rfl (by decide) c1wHistory_sorted)

/-- Concrete instantiation of `C6_ordering`. -/
theorem C6_ordering_witness :
    (c1wState.history.Pairwise fun a b => b.date ≤ a.date) ∧
    c1wState.target_channel_id = some (-1002659193089) ∧
    ((c1wResp.messages.Pairwise fun a b => b.date ≤ a.date) ∧
     c6wResp.messages = c1wResp.messages ∧
     (∀ d : Int, c1wResp.messages.filter (fun b => b.date = d) =
       (buildMessages (-1002659193089)
         (iter_messages c1wState.history (100 - 24 * 3600) 200)).filter
           (fun b => b.date = d))) :=
  ⟨c1wHistory_sorted, rfl,
   C6_ordering none c1wState 24 100 (some "default-change-this-key") c1wResp c6wResp
     (-1002659193089) c1wHistory_sorted rfl c1w_ok c6w_ok⟩

/-- String concatenation concatenates the character data. -/
theorem str_data_append (s t : String) : (s ++ t).data = s.data ++ t.data :=
  rfl

/-- Every character produced by `digitChar` is a decimal digit. -/
theorem digitChar_isDigit (d : Nat) : (digitChar d).isDigit = true := by
  unfold digitChar
  split <;> decide

/-- Every character of the decimal rendering is a decimal digit. -/
theorem natDigits_isDigit (fuel : Nat) :
    ∀ (n : Nat), ∀ c ∈ natDigits fuel n, c.isDigit = true := by
  induction fuel with
  | zero => intro n c hc; cases hc
  | succ fuel ih =>
    intro n c hc
    rw [natDigits] at hc
    by_cases h : n < 10
    · rw [if_pos h] at hc
      rw [List.mem_singleton.mp hc]
      exact digitChar_isDigit n
    · rw [if_neg h] at hc
      rcases List.mem_append.mp hc with h1 | h2
      · exact ih (n / 10) c h1
      · rw [List.mem_singleton.mp h2]
        exact digitChar_isDigit (n % 10)

/-- `str(n)` consists of decimal digits only. -/
theorem natStr_isDigit (n : Nat) : ∀ c ∈ (natStr n).data, c.isDigit = true :=
  natDigits_isDigit (n + 1) n

/-- `str(n)` is never empty. -/
theorem natStr_ne_nil (n : Nat) : (natStr n).data ≠ [] := by
  show natDigits (n + 1) n ≠ []
  rw [natDigits]
  by_cases h : n < 10
  · rw [if_pos h]; simp
  · rw [if_neg h]; simp

/-- C7: on every successful itemized request against a target channel id
whose absolute decimal form starts with the platform's fixed-length `100`
channel marker (the `-100…` form documented at lines 86-88), every
returned entry's link is exactly
`https://t.me/c/` ++ mid ++ `/` ++ last where mid is the non-empty
all-digit channel component obtained by stripping the three-character
marker (`100` ++ mid is the channel's full decimal magnitude) and last is
the non-empty all-digit decimal form of that entry's `message_id`. -/
theorem C7_deep_link_format (env_key : Option String) (st : ServerState)
    (hours now : Int) (header : Option String) (r : MessagesResponse) (tcid : Int)
    (hok : api_messages env_key st hours now header = .ok r)
    (htc : st.target_channel_id = some tcid)
    (hpre : (natStr tcid.natAbs).data.take 3 = ['1', '0', '0'])
    (hlen : 3 < (natStr tcid.natAbs).data.length) :
    ∀ m ∈ r.messages,
      m.link = "https://t.me/c/" ++ String.mk ((natStr tcid.natAbs).data.drop 3)
        ++ "/" ++ natStr m.message_id ∧
      (natStr tcid.natAbs).data.drop 3 ≠ [] ∧
      (∀ c ∈ (natStr tcid.natAbs).data.drop 3, c.isDigit = true) ∧
      ['1', '0', '0'] ++ (natStr tcid.natAbs).data.drop 3 = (natStr tcid.natAbs).data ∧
      (natStr m.message_id).data ≠ [] ∧
      (∀ c ∈ (natStr m.message_id).data, c.isDigit = true) := by
  obtain ⟨-, tcid2, htc2, -, hmsgs, -, -⟩ :=
    get_recent_messages_ok_inv (api_messages_ok_inv hok)
  have htcid : tcid2 = tcid := by
    rw [htc] at htc2
    exact (Option.some_inj.mp htc2).symm
  rw [htcid] at hmsgs
  intro m hm
  rw [hmsgs] at hm
  obtain ⟨raw, -, t, -, -, hb⟩ := mem_buildMessages (List.mem_mergeSort.mp hm)
  have hid : m.message_id = raw.id := by rw [hb]; rfl
  have hlink : m.link = message_link tcid raw.id := by rw [hb]; rfl
  refine ⟨?_, ?_, ?_, ?_, ?_, ?_⟩
  · rw [hlink, hid]
    rfl
  · have hpos : 0 < ((natStr tcid.natAbs).data.drop 3).length := by
      rw [List.length_drop]
      omega
    exact List.ne_nil_of_length_pos hpos
  · intro c hc
    exact natStr_isDigit tcid.natAbs c (List.mem_of_mem_drop hc)
  · rw [← hpre]
    exact List.take_append_drop 3 _
  · exact natStr_ne_nil m.message_id
  · exact natStr_isDigit m.message_id

/-- Concrete instantiation of `C7_deep_link_format`. -/
theorem C7_deep_link_format_witness :
    c1wState.target_channel_id = some (-1002659193089) ∧
    (natStr (Int.natAbs (-1002659193089))).data.take 3 = ['1', '0', '0'] ∧
    3 < (natStr (Int.natAbs (-1002659193089))).data.length ∧
    (∀ m ∈ c1wResp.messages,
      m.link = "https://t.me/c/"
        ++ String.mk ((natStr (Int.natAbs (-1002659193089))).data.drop 3)
        ++ "/" ++ natStr m.message_id ∧
      (natStr (Int.natAbs (-1002659193089))).data.drop 3 ≠ [] ∧
      (∀ c ∈ (natStr (Int.natAbs (-1002659193089))).data.drop 3, c.isDigit = true) ∧
      ['1', '0', '0'] ++ (natStr (Int.natAbs (-1002659193089))).data.drop 3 =
        (natStr (Int.natAbs (-1002659193089))).data ∧
      (natStr m.message_id).data ≠ [] ∧
      (∀ c ∈ (natStr m.message_id).data, c.isDigit = true)) :=
  ⟨rfl, by decide, by decide,
   C7_deep_link_format none c1wState 24 100 (some "default-change-this-key") c1wResp
     (-1002659193089) c1w_ok rfl (by decide) (by decide)⟩

/-- If `dropWhile` leaves something, what it leaves starts with (hence
contains) a character failing the predicate. -/
theorem exists_false_of_dropWhile_ne_nil (p : Char → Bool) :
    ∀ (x : List Char), x.dropWhile p ≠ [] → ∃ c ∈ x.dropWhile p, p c = false := by
  intro x
  induction x with
  | nil => intro h; exact absurd rfl h
  | cons c t ih =>
    intro h
    rw [List.dropWhile_cons] at h ⊢
    by_cases hc : p c = true
    · rw [if_pos hc] at h ⊢
      exact ih h
    · rw [if_neg hc] at h ⊢
      exact ⟨c, List.mem_cons_self c t, by simpa using hc⟩

/-- A non-empty stripped string contains a non-whitespace character. -/
theorem charStrip_nonspace {l : List Char} (h : charStrip l ≠ []) :
    ∃ c ∈ charStrip l, isPySpace c = false := by
  unfold charStrip at h ⊢
  have hr : (l.dropWhile isPySpace).reverse.dropWhile isPySpace ≠ [] := by
    intro hnil
    rw [hnil] at h
    exact h rfl
  obtain ⟨c, hc, hcf⟩ := exists_false_of_dropWhile_ne_nil isPySpace _ hr
  exact ⟨c, List.mem_reverse.mpr hc, hcf⟩

/-- C8: no message with empty or whitespace-only text (in particular no
media-only message, whose text is `None`) is ever present in an itemized
result: every returned entry has a non-empty text containing a
non-whitespace character, and stems from a history message that carried
actual text. (The combined endpoint embeds exactly this list, see
`api_combined_ok_inv`.) -/
theorem C8_no_blank_messages (env_key : Option String) (st : ServerState)
    (hours now : Int) (header : Option String) (r : MessagesResponse)
    (hok : api_messages env_key st hours now header = .ok r) :
    ∀ m ∈ r.messages,
      m.text ≠ "" ∧
      (∃ c ∈ m.text.data, isPySpace c = false) ∧
      ∃ raw ∈ st.history, raw.id = m.message_id ∧
        ∃ t, raw.text = some t ∧ m.text = pyStrip t ∧ pyStrip t ≠ "" := by
  obtain ⟨-, tcid, -, -, hmsgs, -, -⟩ :=
    get_recent_messages_ok_inv (api_messages_ok_inv hok)
  intro m hm
  rw [hmsgs] at hm
  obtain ⟨raw, hraw, t, htext, hst, hb⟩ := mem_buildMessages (List.mem_mergeSort.mp hm)
  have hmt : m.text = pyStrip t := by rw [hb]; rfl
  have hne : m.text ≠ "" := by rw [hmt]; exact hst
  refine ⟨hne, ?_, raw, iter_messages_subset hraw, by rw [hb]; rfl, t, htext, hmt, hst⟩
  have hdata : m.text.data = charStrip t.data := by rw [hmt]; rfl
  have hnil : charStrip t.data ≠ [] := by
    intro hcs
    apply hne
    rw [hmt]
    unfold pyStrip
    rw [hcs]
  rw [hdata]
  exact charStrip_nonspace hnil

/-- Concrete instantiation of `C8_no_blank_messages`. -/
theorem C8_no_blank_messages_witness :
    api_messages none c1wState 24 100 (some "default-change-this-key") = .ok c1wResp ∧
    (∀ m ∈ c1wResp.messages,
      m.text ≠ "" ∧
      (∃ c ∈ m.text.data, isPySpace c = false) ∧
      ∃ raw ∈ c1wState.history, raw.id = m.message_id ∧
        ∃ t, raw.text = some t ∧ m.text = pyStrip t ∧ pyStrip t ≠ "") :=
  ⟨c1w_ok,
   C8_no_blank_messages none c1wState 24 100 (some "default-change-this-key") c1wResp
     c1w_ok⟩

/-- The split result does not depend on the fuel, as long as the fuel
covers the input length. -/
theorem splitSepFuel_congr :
    ∀ (f1 : Nat) (s : List Char) (f2 : Nat), s.length ≤ f1 → s.length ≤ f2 →
      splitSepFuel f1 s = splitSepFuel f2 s := by
  intro f1
  induction f1 with
  | zero =>
    intro s f2 h1 h2
    cases s with
    | nil => cases f2 <;> rfl
    | cons c t => simp at h1
  | succ f1 ih =>
    intro s f2 h1 h2
    cases s with
    | nil => cases f2 <;> rfl
    | cons c t =>
      cases f2 with
      | zero => simp at h2
      | succ f2 =>
        simp only [splitSepFuel]
        rw [List.length_cons] at h1 h2
        by_cases hp : SEP.isPrefixOf (c :: t) = true
        · rw [if_pos hp, if_pos hp]
          have hdrop : ((c :: t).drop 7).length ≤ f1 := by
            rw [List.length_drop]
            simp only [List.length_cons]
            omega
          have hdrop2 : ((c :: t).drop 7).length ≤ f2 := by
            rw [List.length_drop]
            simp only [List.length_cons]
            omega
          rw [ih _ f2 hdrop hdrop2]
        · rw [if_neg hp, if_neg hp]
          rw [ih t f2 (by omega) (by omega)]

/-- Unfolding `splitSep` one character at a time. -/
theorem splitSep_cons (c : Char) (s : List Char) :
    splitSep (c :: s) =
      if SEP.isPrefixOf (c :: s) then
        [] :: splitSep ((c :: s).drop 7)
      else
        (c :: (splitSep s).headD []) :: (splitSep s).tail := by
  unfold splitSep
  rw [show (c :: s).length = s.length + 1 from rfl]
  simp only [splitSepFuel]
  by_cases hp : SEP.isPrefixOf (c :: s) = true
  · rw [if_pos hp, if_pos hp]
    rw [splitSepFuel_congr s.length ((c :: s).drop 7) ((c :: s).drop 7).length
      (by rw [List.length_drop]; simp only [List.length_cons]; omega) (le_refl _)]
  · rw [if_neg hp, if_neg hp]

/-- An `isPrefixOf` fact survives extending the larger list. -/
theorem isPrefixOf_append_of_isPrefixOf {u t : List Char}
    (h : SEP.isPrefixOf u = true) : SEP.isPrefixOf (u ++ t) = true := by
  rw [List.isPrefixOf_iff_prefix] at h ⊢
  obtain ⟨w, hw⟩ := h
  exact ⟨w ++ t, by rw [← List.append_assoc, hw]⟩

/-- The separator is a prefix of itself followed by anything. -/
theorem sep_isPrefixOf_sep_append (t : List Char) :
    SEP.isPrefixOf (SEP ++ t) = true :=
  isPrefixOf_append_of_isPrefixOf (by decide)

/-- Splitting a list that starts with the separator. -/
theorem splitSep_sep_append (t : List Char) :
    splitSep (SEP ++ t) = [] :: splitSep t := by
  rw [show SEP ++ t = '\n' :: (['\n', '-', '-', '-', '\n', '\n'] ++ t) from rfl,
    splitSep_cons]
  rw [if_pos (show SEP.isPrefixOf ('\n' :: (['\n', '-', '-', '-', '\n', '\n'] ++ t)) = true
    from sep_isPrefixOf_sep_append t)]
  rfl

/-- Splitting a separator-free list yields that list as the only
segment. -/
theorem splitSep_of_no_sep :
    ∀ (x : List Char), firstSepIdx x = none → splitSep x = [x] := by
  intro x
  induction x with
  | nil => intro h; rfl
  | cons c s ih =>
    intro h
    rw [firstSepIdx] at h
    by_cases hp : SEP.isPrefixOf (c :: s) = true
    · rw [if_pos hp] at h
      cases h
    · rw [if_neg hp] at h
      have hs : firstSepIdx s = none := by
        cases hfs : firstSepIdx s with
        | none => rfl
        | some p => rw [hfs] at h; cases h
      rw [splitSep_cons, if_neg hp, ih hs]
      rfl

/-- Splitting a list whose first separator occurrence sits exactly where
the leading segment ends. -/
theorem splitSep_append_sep :
    ∀ (x t : List Char), firstSepIdx (x ++ SEP ++ t) = some x.length →
      splitSep (x ++ SEP ++ t) = x :: splitSep t := by
  intro x
  induction x with
  | nil =>
    intro t h
    simp only [List.nil_append]
    exact splitSep_sep_append t
  | cons c x' ih =>
    intro t h
    simp only [List.cons_append] at h ⊢
    rw [firstSepIdx] at h
    by_cases hp : SEP.isPrefixOf (c :: (x' ++ SEP ++ t)) = true
    · rw [if_pos hp] at h
      cases h
    · rw [if_neg hp] at h
      have hx' : firstSepIdx (x' ++ SEP ++ t) = some x'.length := by
        cases hfs : firstSepIdx (x' ++ SEP ++ t) with
        | none => rw [hfs] at h; cases h
        | some p =>
          rw [hfs] at h
          simp only [Option.map_some', Option.some_inj, List.length_cons] at h
          have hp : p = x'.length := by omega
          rw [← hp]
      have hrec := ih t (by simpa using hx')
      rw [splitSep_cons, if_neg hp]
      simp only [List.cons_append] at hrec
      rw [hrec]
      rfl

/-- A reported first occurrence is a genuine occurrence that fits inside
the list. -/
theorem firstSepIdx_some_spec :
    ∀ (x : List Char) (p : Nat), firstSepIdx x = some p →
      p + 7 ≤ x.length ∧ SEP.isPrefixOf (x.drop p) = true := by
  intro x
  induction x with
  | nil => intro p h; cases h
  | cons c s ih =>
    intro p h
    rw [firstSepIdx] at h
    by_cases hp : SEP.isPrefixOf (c :: s) = true
    · rw [if_pos hp] at h
      have hp0 : p = 0 := by
        cases h
        rfl
      subst hp0
      have hlen : (7 : Nat) ≤ (c :: s).length := by
        have := (List.isPrefixOf_iff_prefix.mp hp).length_le
        simpa [SEP] using this
      exact ⟨by omega, by simpa using hp⟩
    · rw [if_neg hp] at h
      cases hfs : firstSepIdx s with
      | none => rw [hfs] at h; cases h
      | some q =>
        rw [hfs] at h
        simp only [Option.map_some', Option.some_inj] at h
        obtain ⟨hq, hqp⟩ := ih q hfs
        rw [← h]
        constructor
        · simp only [List.length_cons]
          omega
        · rw [List.drop_succ_cons]
          exact hqp

/-- An occurrence at some position guarantees a first occurrence at or
before it. -/
theorem firstSepIdx_le_of_occurrence :
    ∀ (s : List Char) (q : Nat), SEP.isPrefixOf (s.drop q) = true →
      ∃ p, p ≤ q ∧ firstSepIdx s = some p := by
  intro s
  induction s with
  | nil =>
    intro q h
    rw [List.drop_nil] at h
    simp [SEP, List.isPrefixOf] at h
  | cons c t ih =>
    intro q h
    by_cases hp : SEP.isPrefixOf (c :: t) = true
    · exact ⟨0, Nat.zero_le q, by rw [firstSepIdx, if_pos hp]⟩
    · cases q with
      | zero =>
        rw [List.drop_zero] at h
        exact absurd h hp
      | succ q' =>
        rw [List.drop_succ_cons] at h
        obtain ⟨p, hpq, hfs⟩ := ih q' h
        exact ⟨p + 1, by omega, by rw [firstSepIdx, if_neg hp, hfs]; rfl⟩

/-- A prefix as long as the first half of an append lies in that first
half. -/
theorem isPrefixOf_of_append {u t : List Char}
    (h : SEP.isPrefixOf (u ++ t) = true) (hlen : 7 ≤ u.length) :
    SEP.isPrefixOf u = true := by
  rw [List.isPrefixOf_iff_prefix] at h ⊢
  have hsep : SEP = (u ++ t).take 7 := by
    have := List.prefix_iff_eq_take.mp h
    simpa [SEP] using this
  rw [List.take_append_of_le_length hlen] at hsep
  rw [hsep]
  exact List.take_prefix 7 u

/-- A separator-clean string does not contain the separator at all. -/
theorem sepClean_no_sep {x : List Char} (h : sepClean x) :
    firstSepIdx x = none := by
  cases hfx : firstSepIdx x with
  | none => rfl
  | some p =>
    exfalso
    obtain ⟨hple, hocc⟩ := firstSepIdx_some_spec x p hfx
    have hocc2 : SEP.isPrefixOf ((x ++ SEP).drop p) = true := by
      rw [List.drop_append_of_le_length (by omega)]
      exact isPrefixOf_append_of_isPrefixOf hocc
    obtain ⟨p', hp'le, hfs⟩ := firstSepIdx_le_of_occurrence (x ++ SEP) p hocc2
    unfold sepClean at h
    rw [hfs] at h
    simp only [Option.some_inj] at h
    omega

/-- For a separator-clean leading segment, the first occurrence of the
separator in segment ++ SEP ++ rest is the appended separator. -/
theorem sepClean_firstSepIdx {x : List Char} (t : List Char) (h : sepClean x) :
    firstSepIdx (x ++ SEP ++ t) = some x.length := by
  have hocc : SEP.isPrefixOf ((x ++ SEP ++ t).drop x.length) = true := by
    rw [List.append_assoc, List.drop_left]
    exact sep_isPrefixOf_sep_append t
  obtain ⟨p, hple, hfs⟩ := firstSepIdx_le_of_occurrence (x ++ SEP ++ t) x.length hocc
  have hpx : p = x.length := by
    by_contra hne
    have hplt : p < x.length := by omega
    obtain ⟨-, hocc2⟩ := firstSepIdx_some_spec _ p hfs
    have hocc3 : SEP.isPrefixOf ((x ++ SEP).drop p) = true := by
      have hdrop : (x ++ SEP ++ t).drop p = (x ++ SEP).drop p ++ t :=
        List.drop_append_of_le_length
          (by rw [List.length_append]; omega)
      rw [hdrop] at hocc2
      exact isPrefixOf_of_append hocc2
        (by rw [List.length_drop, List.length_append, show SEP.length = 7 from rfl]; omega)
    obtain ⟨p', hp'le, hfs'⟩ := firstSepIdx_le_of_occurrence (x ++ SEP) p hocc3
    unfold sepClean at h
    rw [hfs'] at h
    simp only [Option.some_inj] at h
    omega
  rw [hpx] at hfs
  exact hfs

/-- The round trip at the heart of the combined endpoint: joining
separator-clean segments with the fixed separator and splitting again
returns exactly the original segments. -/
theorem splitSep_joinSep :
    ∀ (xs : List (List Char)), xs ≠ [] → (∀ x ∈ xs, sepClean x) →
      splitSep (joinSep xs) = xs := by
  intro xs
  induction xs with
  | nil => intro h; exact absurd rfl h
  | cons x rest ih =>
    intro _ hclean
    cases rest with
    | nil =>
      rw [show joinSep [x] = x from rfl]
      exact splitSep_of_no_sep x
        (sepClean_no_sep (hclean x (List.mem_cons_self x [])))
    | cons y ys =>
      rw [show joinSep (x :: y :: ys) = x ++ SEP ++ joinSep (y :: ys) from rfl]
      rw [splitSep_append_sep x (joinSep (y :: ys))
        (sepClean_firstSepIdx (joinSep (y :: ys))
          (hclean x (List.mem_cons_self x (y :: ys))))]
      rw [ih (by simp) fun z hz => hclean z (List.mem_cons_of_mem x hz)]

/-- C4 (amended): for every successful request to the combined endpoint,
its embedded message list, count and combined text come verbatim from the
same itemized retrieval (the handler calls `get_recent_messages` at line
129 — no independent re-querying), and, provided the result is non-empty
and no message's text-with-link contains (or ends in a proper prefix of)
the fixed separator, splitting the combined text on the separator yields
exactly `message_count` segments, each equal to the corresponding
itemized entry's `text_with_link`, in the same order. Without that
proviso the segment count can differ: an empty result joins to one empty
segment, and a message text containing the separator is split apart. -/
theorem C4_combined_matches_itemized (env_key : Option String) (st : ServerState)
    (hours now : Int) (header : Option String) (r : MessagesResponse)
    (rc : CombinedResponse)
    (hok : api_messages env_key st hours now header = .ok r)
    (hokc : api_combined env_key st hours now header = .ok rc) :
    rc.messages = r.messages ∧
    rc.message_count = r.message_count ∧
    rc.message_count = r.messages.length ∧
    rc.combined_text = ⟨joinSep (r.messages.map fun m => m.text_with_link.data)⟩ ∧
    (r.messages ≠ [] →
      (∀ m ∈ r.messages, sepClean m.text_with_link.data) →
      splitSep rc.combined_text.data =
        r.messages.map (fun m => m.text_with_link.data) ∧
      (splitSep rc.combined_text.data).length = rc.message_count) := by
  obtain ⟨r', hr', hmsgs, hcnt, htext, -⟩ := api_combined_ok_inv hokc
  have hrr : r' = r := by
    have h1 := api_messages_ok_inv hok
    rw [hr'] at h1
    exact Except.ok.inj h1
  rw [hrr] at hmsgs hcnt htext hr'
  obtain ⟨-, tcid, -, -, -, hrcount, -⟩ := get_recent_messages_ok_inv hr'
  refine ⟨hmsgs, hcnt, by rw [hcnt, hrcount], htext, ?_⟩
  intro hne hclean
  have hdata : rc.combined_text.data =
      joinSep (r.messages.map fun m => m.text_with_link.data) := by
    rw [htext]
  have hsplit : splitSep rc.combined_text.data =
      r.messages.map fun m => m.text_with_link.data := by
    rw [hdata]
    refine splitSep_joinSep _ ?_ ?_
    · simp only [ne_eq, List.map_eq_nil_iff]
      exact hne
    · intro x hx
      obtain ⟨m, hm, hxm⟩ := List.mem_map.mp hx
      rw [← hxm]
      exact hclean m hm
  exact ⟨hsplit, by rw [hsplit, List.length_map, hcnt, hrcount]⟩

/-- A one-message history whose text contains the fixed separator. -/
def c4History : List RawMessage :=
  [{ id := 1, text := some "a\n\n---\n\nb", date := 10 }]

/-- A connected, resolved state over that history. -/
def c4State : ServerState :=
  ⟨true, some (-1002659193089), c4History⟩

/-- The combined response on `c4State` for the 24-hour window. -/
def c4Resp : CombinedResponse :=
  { success := true
    combined_text :=
      ⟨joinSep ((buildMessages (-1002659193089)
        (iter_messages c4History (10 - 24 * 3600) 200)).map
          fun m => m.text_with_link.data)⟩
    message_count :=
      (buildMessages (-1002659193089) (iter_messages c4History (10 - 24 * 3600) 200)).length
    messages :=
      buildMessages (-1002659193089) (iter_messages c4History (10 - 24 * 3600) 200)
    processing_date := isoformat 10 }

/-- The combined request on `c4State` succeeds with `c4Resp`. -/
theorem c4w_ok :
    api_combined none c4State 24 10 (some "default-change-this-key") = .ok c4Resp := by
  have h := api_combined_valid_key none c4State 24 10
  rw [show some "default-change-this-key" = some (N8N_API_KEY none) from rfl, h]
  exact get_combined_messages_ok
    (get_recent_messages_ok rfl rfl (by decide) (List.pairwise_singleton _ _))

set_option maxRecDepth 20000 in
/-- C4, counterexample: a single stored message whose text contains the
separator `'\n\n---\n\n'`. The combined request succeeds with
`message_count = 1`, but splitting its `combined_text` on the separator
yields 2 segments, so the split does not reproduce the itemized
`text_with_link` fields. -/
theorem C4_counterexample :
    (api_combined none c4State 24 10 (some "default-change-this-key")).toOption.map
        (fun rc => ((splitSep rc.combined_text.data).length, rc.message_count)) =
      some (2, 1) ∧
    (2 : Nat) ≠ 1 := by
  refine ⟨?_, by decide⟩
  rw [c4w_ok]
  simp only [Except.toOption, Option.map_some']
  decide

set_option maxRecDepth 20000 in
/-- Concrete instantiation of `C4_combined_matches_itemized`. -/
theorem C4_combined_matches_itemized_witness :
    api_messages none c1wState 24 100 (some "default-change-this-key") = .ok c1wResp ∧
    api_combined none c1wState 24 100 (some "default-change-this-key") = .ok c6wResp ∧
    c1wResp.messages ≠ [] ∧
    (∀ m ∈ c1wResp.messages, sepClean m.text_with_link.data) ∧
    (c6wResp.messages = c1wResp.messages ∧
     c6wResp.message_count = c1wResp.message_count ∧
     c6wResp.message_count = c1wResp.messages.length ∧
     c6wResp.combined_text =
       ⟨joinSep (c1wResp.messages.map fun m => m.text_with_link.data)⟩ ∧
     (c1wResp.messages ≠ [] →
       (∀ m ∈ c1wResp.messages, sepClean m.text_with_link.data) →
       splitSep c6wResp.combined_text.data =
         c1wResp.messages.map (fun m => m.text_with_link.data) ∧
       (splitSep c6wResp.combined_text.data).length = c6wResp.message_count)) := by
  refine ⟨c1w_ok, c6w_ok, by decide, by decide, ?_⟩
  exact C4_combined_matches_itemized none c1wState 24 100
    (some "default-change-this-key") c1wResp c6wResp c1w_ok c6w_ok

/-- C9: for every inbound event from the source channel, a failed forward
is logged and the event is dropped: the handler returns normally on every
outcome (it is a total function, so no exception escapes the
`try`/`except` of lines 222-231), each event causes exactly one forward
attempt (no retry), later events are still processed and forwarded after
an earlier failure, and the event subscription stays registered. -/
theorem C9_forward_failure_logged_and_dropped (st : RelayState)
    (events : List (InboundEvent × Except String Unit)) :
    (processEvents st events).handler_registered = st.handler_registered ∧
    (processEvents st events).attempts = st.attempts + events.length ∧
    (processEvents st events).forwarded =
      st.forwarded ++ events.filterMap fun p =>
        match p.2 with
        | .ok _ => some p.1.message_id
        | .error _ => none :=
  ⟨processEvents_registered events st, processEvents_attempts events st,
    processEvents_forwarded events st⟩

/-- C2, counterexample: with no key configured in the environment
(`N8N_API_KEY` unset), a request carrying no key header is *not*
accepted by either protected endpoint — it is rejected with 401, because
line 37 substitutes the default literal key rather than disabling
authentication. -/
theorem C2_counterexample :
    api_messages none ⟨true, some (-1002659193089), []⟩ 24 0 none =
      .error ⟨401, "Invalid API key"⟩ ∧
    api_combined none ⟨true, some (-1002659193089), []⟩ 24 0 none =
      .error ⟨401, "Invalid API key"⟩ :=
  ⟨rfl, rfl⟩

/-- C2 (amended): there is no unauthenticated configuration. When the
environment variable is unset the effective key is the fixed literal
`default-change-this-key`; in every configuration, a request whose key
header is missing or differs from the effective key receives HTTP 401
and no message data, from both protected endpoints. -/
theorem C2_no_unauthenticated_mode (env_key : Option String) (st : ServerState)
    (hours now : Int) (header : Option String)
    (h : header ≠ some (N8N_API_KEY env_key)) :
    N8N_API_KEY none = "default-change-this-key" ∧
    api_messages env_key st hours now header = .error ⟨401, "Invalid API key"⟩ ∧
    api_combined env_key st hours now header = .error ⟨401, "Invalid API key"⟩ :=
  ⟨rfl, (auth_reject h).1, (auth_reject h).2⟩

/-- Concrete instantiation of `C2_no_unauthenticated_mode`. -/
theorem C2_no_unauthenticated_mode_witness :
    some "wrong-key" ≠ some (N8N_API_KEY none) ∧
    (N8N_API_KEY none = "default-change-this-key" ∧
     api_messages none ⟨true, some (-1002659193089), []⟩ 24 0 (some "wrong-key") =
       .error ⟨401, "Invalid API key"⟩ ∧
     api_combined none ⟨true, some (-1002659193089), []⟩ 24 0 (some "wrong-key") =
       .error ⟨401, "Invalid API key"⟩) :=
  ⟨by decide,
   C2_no_unauthenticated_mode none ⟨true, some (-1002659193089), []⟩ 24 0
     (some "wrong-key") (by decide)⟩

/-- C10: when the environment variable is unset the effective required
key is the literal `default-change-this-key`: a request to either
protected endpoint whose key header is missing or differs from that
literal receives HTTP 401 and no data, and in no configuration does a
protected endpoint succeed for a request without a header matching the
effective key. -/
theorem C10_default_literal_key_required (st : ServerState) (hours now : Int)
    (header : Option String) (h : header ≠ some "default-change-this-key") :
    N8N_API_KEY none = "default-change-this-key" ∧
    api_messages none st hours now header = .error ⟨401, "Invalid API key"⟩ ∧
    api_combined none st hours now header = .error ⟨401, "Invalid API key"⟩ ∧
    (∀ (env_key : Option String) (hd : Option String),
      (api_messages env_key st hours now hd).toOption.isSome = true →
        hd = some (N8N_API_KEY env_key)) ∧
    (∀ (env_key : Option String) (hd : Option String),
      (api_combined env_key st hours now hd).toOption.isSome = true →
        hd = some (N8N_API_KEY env_key)) :=
  ⟨rfl, (auth_reject h).1, (auth_reject h).2,
   fun _ _ hk => api_messages_ok_key hk,
   fun _ _ hk => api_combined_ok_key hk⟩

/-- Concrete instantiation of `C10_default_literal_key_required`. -/
theorem C10_default_literal_key_required_witness :
    some "nope" ≠ some "default-change-this-key" ∧
    (N8N_API_KEY none = "default-change-this-key" ∧
     api_messages none ⟨true, some (-1002659193089), []⟩ 24 0 (some "nope") =
       .error ⟨401, "Invalid API key"⟩ ∧
     api_combined none ⟨true, some (-1002659193089), []⟩ 24 0 (some "nope") =
       .error ⟨401, "Invalid API key"⟩ ∧
     (∀ (env_key : Option String) (hd : Option String),
       (api_messages env_key ⟨true, some (-1002659193089), []⟩ 24 0 hd).toOption.isSome = true →
         hd = some (N8N_API_KEY env_key)) ∧
     (∀ (env_key : Option String) (hd : Option String),
       (api_combined env_key ⟨true, some (-1002659193089), []⟩ 24 0 hd).toOption.isSome = true →
         hd = some (N8N_API_KEY env_key))) :=
  ⟨by decide,
   C10_default_literal_key_required ⟨true, some (-1002659193089), []⟩ 24 0
     (some "nope") (by decide)⟩

/-- C3, counterexample: with the session disconnected, a validly
authenticated request to the *combined* endpoint is answered 500, not
503: the `except Exception` of line 146 catches the 503 `HTTPException`
raised inside `get_recent_messages` and re-raises it as a 500 (lines
148-151). -/
theorem C3_counterexample :
    respStatus (api_combined none ⟨false, some (-1002659193089), []⟩ 24 0
      (some "default-change-this-key")) = some 500 ∧
    ¬respStatus (api_combined none ⟨false, some (-1002659193089), []⟩ 24 0
      (some "default-change-this-key")) = some 503 := by
  constructor
  · rfl
  · decide

/-- C3 (amended): for every request carrying the effective key, if the
session is not connected or the target channel is unresolved, the
itemized endpoint answers HTTP 503 while the combined endpoint wraps the
same failure into an HTTP 500; neither endpoint returns any success
payload (and in particular no partially-populated one). -/
theorem C3_unavailable_statuses (env_key : Option String) (st : ServerState)
    (hours now : Int) (header : Option String)
    (hdown : st.connected = false ∨ st.target_channel_id = none)
    (hkey : header = some (N8N_API_KEY env_key)) :
    respStatus (api_messages env_key st hours now header) = some 503 ∧
    respStatus (api_combined env_key st hours now header) = some 500 ∧
    (api_messages env_key st hours now header).toOption = none ∧
    (api_combined env_key st hours now header).toOption = none := by
  subst hkey
  have hchk : checkApiKey (N8N_API_KEY env_key) (some (N8N_API_KEY env_key)) = .ok true := by
    simp [checkApiKey, verify_api_key]
  have hrec : ∃ d, get_recent_messages st hours now = .error ⟨503, d⟩ := by
    by_cases hc : st.connected = false
    · exact ⟨"Telegram client not connected", by simp [get_recent_messages, hc]⟩
    · have hct : st.connected = true := by
        cases hcc : st.connected
        · exact absurd hcc hc
        · rfl
      have htgt : st.target_channel_id = none := by
        cases hdown with
        | inl h1 => exact absurd h1 hc
        | inr h2 => exact h2
      exact ⟨"Target channel not configured",
        by simp [get_recent_messages, hct, htgt]⟩
  obtain ⟨d, hrec⟩ := hrec
  refine ⟨?_, ?_, ?_, ?_⟩ <;>
    simp [api_messages, api_combined, hchk, get_combined_messages, hrec,
      respStatus, Except.toOption]

/-- Concrete instantiation of `C3_unavailable_statuses`. -/
theorem C3_unavailable_statuses_witness :
    ((⟨false, some (-1002659193089), []⟩ : ServerState).connected = false ∨
      (⟨false, some (-1002659193089), []⟩ : ServerState).target_channel_id = none) ∧
    (respStatus (api_messages none ⟨false, some (-1002659193089), []⟩ 24 0
        (some (N8N_API_KEY none))) = some 503 ∧
     respStatus (api_combined none ⟨false, some (-1002659193089), []⟩ 24 0
        (some (N8N_API_KEY none))) = some 500 ∧
     (api_messages none ⟨false, some (-1002659193089), []⟩ 24 0
        (some (N8N_API_KEY none))).toOption = none ∧
     (api_combined none ⟨false, some (-1002659193089), []⟩ 24 0
        (some (N8N_API_KEY none))).toOption = none) :=
  ⟨Or.inl rfl,
   C3_unavailable_statuses none ⟨false, some (-1002659193089), []⟩ 24 0
     (some (N8N_API_KEY none)) (Or.inl rfl) rfl⟩

end TgFwd
